import Mathlib

/-!
Verification development for the JSXGraph group transform engine
(`src/base/group.js`).

The JavaScript source is shallowly embedded: the group state is a record of
association lists (JS objects iterate their string keys in insertion order,
and assigning an existing key keeps its position), coordinates are exact
rationals, and the `update` cycle is a pure state transformer.  External
collaborators that the spec excludes (the board's dependent-recompute pass,
trigonometric matrix construction, `Geometry.distance`) are parameters of
`update`; everything that `group.js` itself decides is translated directly
from the source.
-/

attribute [local semireducible] Rat.mul Rat.add Rat.sub Rat.inv

namespace JXGGroup

/-- A member point: live user coordinates plus the point's own list of group
ids it belongs to (`point.groups` in the source). -/
structure JPoint where
  x : ℚ
  y : ℚ
  groups : List String
deriving DecidableEq, Repr

/-- Association-list lookup, first match wins (JS property access). -/
def assocGet {α : Type} : List (String × α) → String → Option α
  | [], _ => none
  | (k, v) :: l, k' => if k' = k then some v else assocGet l k'

/-- Association-list assignment (JS `obj[k] = v`): an existing key keeps its
position and gets the new value, a fresh key is appended at the end. -/
def assocSet {α : Type} : List (String × α) → String → α → List (String × α)
  | [], k, v => [(k, v)]
  | (k', v') :: l, k, v =>
      if k' = k then (k, v) :: l else (k', v') :: assocSet l k v

/-- JS `delete obj[k]` on an association list. -/
def assocDel {α : Type} (l : List (String × α)) (k : String) : List (String × α) :=
  l.filter (fun e => e.1 ≠ k)

/-- `Type.uniqueArray`: deduplicate, keeping the first occurrence of each
element.  Modelled from the spec: `utils/type.js` is not part of the shown
source; §4.7 describes the point's group-membership list as deduplicated. -/
def uniqueArray (l : List String) : List String :=
  l.foldl (fun acc x => if x ∈ acc then acc else acc ++ [x]) []

/-- Polymorphic rotation/scale center specification (§3, §4.2): a point
reference (carrying the referenced point's live coordinates), the symbolic
string "centroid", a literal coordinate pair, a zero-argument callback, or
any other (unsupported) value. -/
inductive CenterSpec where
  | pt (x y : ℚ)
  | centroid
  | arr (x y : ℚ)
  | cb (f : Unit → ℚ × ℚ)
  | other

/-- The transform kind resolved by the drag classifier. -/
inductive Action where
  | nothing
  | translation
  | rotation
  | scaling
deriving DecidableEq, Repr

/-- Result of `_update_find_drag_type`. -/
structure DragInfo where
  action : Action
  id : String
  changed : List String
deriving DecidableEq, Repr

/-- A 3×3 transform matrix acting on homogeneous user coordinates
`(1, x, y)` (the source stores `usrCoords = [z, x, y]`). -/
structure Mat3 where
  m00 : ℚ
  m01 : ℚ
  m02 : ℚ
  m10 : ℚ
  m11 : ℚ
  m12 : ℚ
  m20 : ℚ
  m21 : ℚ
  m22 : ℚ
deriving DecidableEq, Repr

/-- `Mat.matVecMult` of a matrix with the homogeneous vector `(1, x, y)`. -/
def matVecMult (m : Mat3) (c : ℚ × ℚ) : ℚ × ℚ × ℚ :=
  (m.m00 + m.m01 * c.1 + m.m02 * c.2,
   m.m10 + m.m11 * c.1 + m.m12 * c.2,
   m.m20 + m.m21 * c.1 + m.m22 * c.2)

/-- Apply a matrix to a coordinate pair and renormalize the homogeneous
result.  Every transform built by `update` has first row `(1, 0, 0)`, so the
returned z-component is 1 and the division is trivial there. -/
def applyMat (m : Mat3) (c : ℚ × ℚ) : ℚ × ℚ :=
  let v := matVecMult m c
  if v.1 = 0 then (v.2.1, v.2.2) else (v.2.1 / v.1, v.2.2 / v.1)

/-- The transform handed to `_update_apply_transformation`: a translation
vector (`t = [dx, dy]`) or a realized transform matrix (`t.matrix`). -/
inductive Trans where
  | vec (dx dy : ℚ)
  | mat (m : Mat3)

/-- `Mat.eps` (0.000001 in `math/math.js`). -/
def epsQ : ℚ := 1 / 1000000

/-- Squared Euclidean distance of two coordinate pairs.  The source compares
`coords.distance(...) > Mat.eps`; over nonnegative quantities this is
equivalent to the squared comparison used here. -/
def distSq (p q : ℚ × ℚ) : ℚ :=
  (p.1 - q.1) * (p.1 - q.1) + (p.2 - q.2) * (p.2 - q.2)

/-- The full group state (`JXG.Group`): the group's own id, the ids of the
objects still existing on the board, the member map `objects`, the snapshot
cache `coords`, the three role arrays (holding point references, identified
by id), the scale-direction map, the two center specifications and the dirty
flag `needsUpdate`. -/
structure Sys where
  gid : String
  boardIds : List String
  objects : List (String × JPoint)
  coords : List (String × ℚ × ℚ)
  rotationPoints : List String
  translationPoints : List String
  scalePoints : List String
  scaleDirections : List (String × String)
  rotationCenter : Option CenterSpec
  scaleCenter : Option CenterSpec
  needsUpdate : Bool

/-- A freshly constructed empty group: `rotationCenter = 'centroid'`,
`scaleCenter = null`, all role arrays empty (constructor, lines 99-107). -/
def initSys (gid : String) (boardIds : List String) : Sys :=
  { gid := gid
    boardIds := boardIds
    objects := []
    coords := []
    rotationPoints := []
    translationPoints := []
    scalePoints := []
    scaleDirections := []
    rotationCenter := some CenterSpec.centroid
    scaleCenter := none
    needsUpdate := false }

/-- `_updateCoordsCache(el)` (lines 217-223): if `el` is nonempty and a
current member, copy the member's live coordinates into the cache. -/
def updateCoordsCache (s : Sys) (el : String) : Sys :=
  if el ≠ "" then
    match assocGet s.objects el with
    | some p => { s with coords := assocSet s.coords el (p.x, p.y) }
    | none => s
  else s

/-- `addPoint(object)` (lines 449-459): register the member (overwriting an
existing entry in place), refresh its snapshot, push it onto
`translationPoints` (always appended, even if already present), append this
group's id to the point's own `groups` list and deduplicate that list. -/
def addPoint (s : Sys) (pid : String) (pt : JPoint) : Sys :=
  let objects1 := assocSet s.objects pid pt
  let coords1 := assocSet s.coords pid (pt.x, pt.y)
  let trans1 := s.translationPoints ++ [pid]
  let pt2 : JPoint := { pt with groups := uniqueArray (pt.groups ++ [s.gid]) }
  { s with
      objects := assocSet objects1 pid pt2
      coords := coords1
      translationPoints := trans1 }

/-- `removePoint(point)` (lines 498-502): `delete this.objects[point.id]`.
Note that neither the snapshot cache nor the role arrays are touched. -/
def removePoint (s : Sys) (pid : String) : Sys :=
  { s with objects := assocDel s.objects pid }

/-- The change-detection loop of `_update_find_drag_type` (lines 338-346):
the ids of members whose live coordinates are farther than `Mat.eps` from
their cached coordinates, in member-iteration order.  A member without a
cache entry would make the JS crash; it is modelled as unchanged (such a
state is unreachable through the public API). -/
def changedList (s : Sys) : List String :=
  s.objects.filterMap (fun ep =>
    match assocGet s.coords ep.1 with
    | some c => if epsQ * epsQ < distSq (ep.2.x, ep.2.y) c then some ep.1 else none
    | none => none)

/-- `_update_find_drag_type` (lines 329-377): no change → `nothing`; more
than one change → `translation` with the first changed member as drag
source; exactly one change → rotation &gt; scaling &gt; translation by role
membership, `nothing` if the member has no granting role. -/
def findDragType (s : Sys) : DragInfo :=
  match changedList s with
  | [] => { action := Action.nothing, id := "", changed := [] }
  | dragObjId :: rest =>
      if rest.length > 0 then
        { action := Action.translation, id := dragObjId, changed := dragObjId :: rest }
      else if dragObjId ∈ s.rotationPoints ∧ s.rotationCenter.isSome then
        { action := Action.rotation, id := dragObjId, changed := dragObjId :: rest }
      else if dragObjId ∈ s.scalePoints ∧ s.scaleCenter.isSome then
        { action := Action.scaling, id := dragObjId, changed := dragObjId :: rest }
      else if dragObjId ∈ s.translationPoints then
        { action := Action.translation, id := dragObjId, changed := dragObjId :: rest }
      else
        { action := Action.nothing, id := dragObjId, changed := dragObjId :: rest }

/-- `_update_centroid_center` (lines 384-402): the arithmetic mean of all
entries of the snapshot cache `this.coords`; `(0, 0)` when the cache is
empty (the division is guarded by `len > 0`). -/
def centroidCenter (s : Sys) : ℚ × ℚ :=
  let sum := s.coords.foldl (fun acc ec => (acc.1 + ec.2.1, acc.2 + ec.2.2)) (0, 0)
  let len := s.coords.length
  if 0 < len then (sum.1 / len, sum.2 / len) else (0, 0)

/-- Center resolution in `update` (lines 260-270): point reference → its
live coordinates, "centroid" → `_update_centroid_center`, literal array →
itself, callback → its value; anything else (including `null`) resolves to
`none`, upon which `update` returns with no mutation. -/
def resolveCenter (s : Sys) : Option CenterSpec → Option (ℚ × ℚ)
  | some (CenterSpec.pt x y) => some (x, y)
  | some CenterSpec.centroid => some (centroidCenter s)
  | some (CenterSpec.arr x y) => some (x, y)
  | some (CenterSpec.cb f) => some (f ())
  | some CenterSpec.other => none
  | none => none

/-- Coordinate assignment `snapshot + t` used for a translated member
(lines 424-426): defined when the transform really is a vector and the
member has a cache entry, otherwise the point is left as is. -/
def applyVecTo (t : Trans) (co : Option (ℚ × ℚ)) (p : JPoint) : JPoint :=
  match t, co with
  | Trans.vec dx dy, some c => { p with x := c.1 + dx, y := c.2 + dy }
  | _, _ => p

/-- Coordinate assignment `matrix · snapshot` used for a rotated or scaled
member (lines 428-435).  For non-drag members the source delegates to
`Transform.applyOnce`; modelled from the spec: `base/transformation.js` is
not part of the shown source, and §4.5 specifies the matrix applied to the
member's pre-update snapshot.  For the drag source itself this is the
direct translation of `Mat.matVecMult(t.matrix, this.coords[obj.id]
.usrCoords)` from line 434. -/
def applyMatTo (t : Trans) (co : Option (ℚ × ℚ)) (p : JPoint) : JPoint :=
  match t, co with
  | Trans.mat m, some c => { p with x := (applyMat m c).1, y := (applyMat m c).2 }
  | _, _ => p

/-- One member's treatment inside the loop of `_update_apply_transformation`
(lines 408-442).  `none` means the member id no longer exists on the board
and the member entry is deleted.  For a translation, a non-drag member
outside the changed set is moved to `snapshot + t` and members in the
changed set (and the drag source) are skipped; for rotation/scaling every
member, the drag source included, receives `matrix · snapshot`. -/
def applyStep (s : Sys) (drag : DragInfo) (t : Trans) (el : String) (p : JPoint) :
    Option JPoint :=
  if el ∈ s.boardIds then
    some
      (if el ≠ drag.id then
        if drag.action = Action.translation then
          if el ∉ drag.changed then applyVecTo t (assocGet s.coords el) p else p
        else if drag.action = Action.rotation ∨ drag.action = Action.scaling then
          applyMatTo t (assocGet s.coords el) p
        else p
      else
        if drag.action = Action.rotation ∨ drag.action = Action.scaling then
          applyMatTo t (assocGet s.coords el) p
        else p)
  else none

/-- `_update_apply_transformation` (lines 408-442): run `applyStep` over the
member map. -/
def applyTransformation (s : Sys) (drag : DragInfo) (t : Trans) : Sys :=
  { s with
      objects := s.objects.filterMap (fun ep =>
        (applyStep s drag t ep.1 ep.2).map (fun q => (ep.1, q))) }

/-- Result of the first phase of `update`: either an early return with the
resulting state (lines 234-242 and the abort returns in 260-293), or the
state after `_update_apply_transformation` and `needsUpdate = false`
(lines 296-298), just before the dependent-recompute propagation. -/
inductive Phase1 where
  | early (s : Sys)
  | applied (s : Sys) (drag : DragInfo)

/-- The body of `update` (lines 238-298) after the entry guard, given the
classifier's result.  `dist` abstracts `Geometry.distance` and `rotM`
abstracts the matrix of `board.create('transform', [rad(snapshot, center,
live), center...], rotate)` — both external math collaborators (§6). -/
def updateGo (dist : ℚ × ℚ → ℚ × ℚ → ℚ) (rotM : ℚ × ℚ → ℚ × ℚ → ℚ × ℚ → Mat3)
    (s : Sys) (drag : DragInfo) : Phase1 :=
  if drag.action = Action.nothing then Phase1.early (updateCoordsCache s drag.id)
  else
    match assocGet s.objects drag.id, assocGet s.coords drag.id with
    | some obj, some snap =>
        match drag.action with
        | Action.translation =>
            let t := Trans.vec (obj.x - snap.1) (obj.y - snap.2)
            Phase1.applied { applyTransformation s drag t with needsUpdate := false } drag
        | Action.rotation =>
            match resolveCenter s s.rotationCenter with
            | none => Phase1.early s
            | some c =>
                let t := Trans.mat (rotM snap c (obj.x, obj.y))
                Phase1.applied
                  { applyTransformation s drag t with needsUpdate := false } drag
        | Action.scaling =>
            match resolveCenter s s.scaleCenter with
            | none => Phase1.early s
            | some c =>
                let d0 := dist snap c
                if |d0| < epsQ then Phase1.early s
                else
                  match assocGet s.scaleDirections drag.id with
                  | none => Phase1.early s
                  | some dir =>
                      let f := dist (obj.x, obj.y) c / d0
                      let sx := if dir.contains 'x' then f else 1
                      let sy := if dir.contains 'y' then f else 1
                      let t := Trans.mat
                        { m00 := 1, m01 := 0, m02 := 0
                          m10 := c.1 * (1 - sx), m11 := sx, m12 := 0
                          m20 := c.2 * (1 - sy), m21 := 0, m22 := sy }
                      Phase1.applied
                        { applyTransformation s drag t with needsUpdate := false } drag
        | Action.nothing => Phase1.early s
    | _, _ => Phase1.early s

/-- The part of `update` up to and including clearing the dirty flag
(lines 234-298): entry guard, classification, transform construction and
application.  All aborts (`return this`) leave the state unchanged. -/
def updatePhase1 (dist : ℚ × ℚ → ℚ × ℚ → ℚ) (rotM : ℚ × ℚ → ℚ × ℚ → ℚ × ℚ → Mat3)
    (s : Sys) : Phase1 :=
  if s.needsUpdate = false then Phase1.early s
  else updateGo dist rotM s (findDragType s)

/-- The snapshot refresh closing a successful cycle (lines 315-319):
`_updateCoordsCache(el)` for every current member. -/
def refreshAllCoords (s : Sys) : Sys :=
  (s.objects.map Prod.fst).foldl updateCoordsCache s

/-- `update()` (lines 231-322).  `propagate` abstracts
`board.updateElements` together with the dependent-flag preparation, the
external dependent-recompute pass (§4.6 step 6); it receives the state in
which the dirty flag has already been cleared. -/
def update (dist : ℚ × ℚ → ℚ × ℚ → ℚ) (rotM : ℚ × ℚ → ℚ × ℚ → ℚ × ℚ → Mat3)
    (propagate : Sys → Sys) (s : Sys) : Sys :=
  match updatePhase1 dist rotM s with
  | Phase1.early t => t
  | Phase1.applied t _ => refreshAllCoords (propagate t)

/-- The centroid as the spec's sentence for claim C3 describes it: the
arithmetic mean of the snapshot coordinates of the current members (not of
all cache entries).  Stated for comparison with `centroidCenter`. -/
def specCentroidOfMembers (s : Sys) : ℚ × ℚ :=
  let cs := s.objects.filterMap (fun ep => assocGet s.coords ep.1)
  let sum := cs.foldl (fun acc c => (acc.1 + c.1, acc.2 + c.2)) (0, 0)
  if 0 < cs.length then (sum.1 / cs.length, sum.2 / cs.length) else (0, 0)

/-- A placeholder for the external `Geometry.distance` collaborator used to
instantiate universally quantified theorems at concrete inputs. -/
def dist0 : ℚ × ℚ → ℚ × ℚ → ℚ := fun _ _ => 0

/-- A placeholder for the external rotation-matrix construction used to
instantiate universally quantified theorems at concrete inputs. -/
def rotM0 : ℚ × ℚ → ℚ × ℚ → ℚ × ℚ → Mat3 :=
  fun _ _ _ =>
    { m00 := 1, m01 := 0, m02 := 0
      m10 := 0, m11 := 1, m12 := 0
      m20 := 0, m21 := 0, m22 := 1 }

/-- Concrete scenario for claim C1: four members, all translation points,
member A externally moved from its snapshot (0,0) to (1,3). -/
def transFour : Sys :=
  { gid := "G"
    boardIds := ["A", "B", "C", "D"]
    objects := [("A", ⟨1, 3, ["G"]⟩), ("B", ⟨2, 0, ["G"]⟩),
                ("C", ⟨2, 2, ["G"]⟩), ("D", ⟨0, 2, ["G"]⟩)]
    coords := [("A", (0, 0)), ("B", (2, 0)), ("C", (2, 2)), ("D", (0, 2))]
    rotationPoints := []
    translationPoints := ["A", "B", "C", "D"]
    scalePoints := []
    scaleDirections := []
    rotationCenter := some CenterSpec.centroid
    scaleCenter := none
    needsUpdate := true }

/-- Concrete scenario for claim C2: member A, simultaneously a rotation and
a scale point with both centers configured, moved alone. -/
def roleBoth : Sys :=
  { gid := "G"
    boardIds := ["A", "B"]
    objects := [("A", ⟨1, 1, ["G"]⟩), ("B", ⟨2, 0, ["G"]⟩)]
    coords := [("A", (0, 0)), ("B", (2, 0))]
    rotationPoints := ["A"]
    translationPoints := ["A", "B"]
    scalePoints := ["A"]
    scaleDirections := [("A", "xy")]
    rotationCenter := some (CenterSpec.arr 0 0)
    scaleCenter := some (CenterSpec.arr 5 5)
    needsUpdate := true }

/-- States reached through the membership API: add A at (0,0), add B at
(2,2), then remove B (and, last, remove A as well).  `removePoint` leaves
the snapshot cache untouched, so `grpRemovedB`/`grpRemovedBoth` carry stale
cache entries. -/
def grpA : Sys := addPoint (initSys "G" ["A", "B"]) "A" ⟨0, 0, []⟩

/-- Second step of the C3/C9 construction: B added. -/
def grpAB : Sys := addPoint grpA "B" ⟨2, 2, []⟩

/-- Third step: B removed; its snapshot entry survives. -/
def grpRemovedB : Sys := removePoint grpAB "B"

/-- Fourth step: both members removed; both snapshot entries survive. -/
def grpRemovedBoth : Sys := removePoint grpRemovedB "A"

/-- Re-adding the existing member A (claim C10). -/
def grpReAddA : Sys := addPoint grpAB "A" ⟨5, 5, ["G"]⟩

/-- Concrete scenario for the C3 amended witness: a group with members
snapshotted at (0,0), (2,0), (2,2), (0,2), no stale cache entries. -/
def centroidFour : Sys :=
  { gid := "G"
    boardIds := ["A", "B", "C", "D"]
    objects := [("A", ⟨0, 0, ["G"]⟩), ("B", ⟨2, 0, ["G"]⟩),
                ("C", ⟨2, 2, ["G"]⟩), ("D", ⟨0, 2, ["G"]⟩)]
    coords := [("A", (0, 0)), ("B", (2, 0)), ("C", (2, 2)), ("D", (0, 2))]
    rotationPoints := []
    translationPoints := ["A", "B", "C", "D"]
    scalePoints := []
    scaleDirections := []
    rotationCenter := some CenterSpec.centroid
    scaleCenter := none
    needsUpdate := false }

/-- Concrete scenario for claim C4: member A, a rotation point, moved alone,
with the rotation center set to an unsupported value. -/
def badCenter : Sys :=
  { gid := "G"
    boardIds := ["A", "B"]
    objects := [("A", ⟨1, 1, ["G"]⟩), ("B", ⟨2, 0, ["G"]⟩)]
    coords := [("A", (0, 0)), ("B", (2, 0))]
    rotationPoints := ["A"]
    translationPoints := ["A", "B"]
    scalePoints := []
    scaleDirections := []
    rotationCenter := some CenterSpec.other
    scaleCenter := none
    needsUpdate := true }

/-- Concrete scenario for claim C5: member A, a scale point, moved alone,
with its snapshot exactly at the configured scale center (0,0). -/
def degenScale : Sys :=
  { gid := "G"
    boardIds := ["A", "B"]
    objects := [("A", ⟨1, 1, ["G"]⟩), ("B", ⟨2, 0, ["G"]⟩)]
    coords := [("A", (0, 0)), ("B", (2, 0))]
    rotationPoints := []
    translationPoints := ["A", "B"]
    scalePoints := ["A"]
    scaleDirections := [("A", "xy")]
    rotationCenter := some CenterSpec.centroid
    scaleCenter := some (CenterSpec.arr 0 0)
    needsUpdate := true }

/-- Concrete scenario for claims C6/C7: drag info naming A as rotation drag
source. -/
def rotDrag : DragInfo := { action := Action.rotation, id := "A", changed := ["A"] }

/-- A concrete 90-degree-style rotation matrix (first row (1,0,0)). -/
def rot90 : Mat3 :=
  { m00 := 1, m01 := 0, m02 := 0
    m10 := 0, m11 := 0, m12 := -1
    m20 := 0, m21 := 1, m22 := 0 }

/-- Concrete scenario for claim C7: members A and B both externally moved
(A by (1,0), B to (7,7)), C unmoved. -/
def multiMove : Sys :=
  { gid := "G"
    boardIds := ["A", "B", "C"]
    objects := [("A", ⟨1, 0, ["G"]⟩), ("B", ⟨7, 7, ["G"]⟩), ("C", ⟨4, 4, ["G"]⟩)]
    coords := [("A", (0, 0)), ("B", (2, 2)), ("C", (4, 4))]
    rotationPoints := ["B"]
    translationPoints := ["A", "B", "C"]
    scalePoints := []
    scaleDirections := []
    rotationCenter := some CenterSpec.centroid
    scaleCenter := none
    needsUpdate := true }

/-- The state `updatePhase1` hands to the dependent-recompute propagation in
the concrete C1 scenario (claim C8). -/
def phase1State : Sys :=
  match updatePhase1 dist0 rotM0 transFour with
  | Phase1.early t => t
  | Phase1.applied t _ => t

/-- The drag info `updatePhase1` produces in the concrete C1 scenario
(claim C8). -/
def phase1Drag : DragInfo :=
  match updatePhase1 dist0 rotM0 transFour with
  | Phase1.early _ => { action := Action.nothing, id := "", changed := [] }
  | Phase1.applied _ d => d

end JXGGroup

namespace JXGGroup

theorem assocGet_eq_none {α : Type} {l : List (String × α)} {k : String}
    (h : k ∉ l.map Prod.fst) : assocGet l k = none := by
  induction l with
  | nil => rfl
  | cons e t ih =>
      obtain ⟨k', v'⟩ := e
      simp only [List.map_cons, List.mem_cons] at h
      push_neg at h
      simp only [assocGet, if_neg h.1]
      exact ih h.2

theorem assocGet_of_mem {α : Type} {l : List (String × α)} {k : String} {v : α}
    (hnd : (l.map Prod.fst).Nodup) (hm : (k, v) ∈ l) : assocGet l k = some v := by
  induction l with
  | nil => cases hm
  | cons e t ih =>
      obtain ⟨k', v'⟩ := e
      simp only [List.map_cons, List.nodup_cons] at hnd
      rcases List.mem_cons.1 hm with h | h
      · obtain ⟨rfl, rfl⟩ := Prod.mk.injEq .. ▸ h
        simp [assocGet]
      · have hk : k ≠ k' := by
          rintro rfl
          exact hnd.1 (List.mem_map.2 ⟨(k, v), h, rfl⟩)
        simp only [assocGet, if_neg hk]
        exact ih hnd.2 h

theorem assocGet_assocSet_self {α : Type} (l : List (String × α)) (k : String) (v : α) :
    assocGet (assocSet l k v) k = some v := by
  induction l with
  | nil => simp [assocSet, assocGet]
  | cons e t ih =>
      obtain ⟨k', v'⟩ := e
      by_cases h : k' = k
      · simp [assocSet, if_pos h, assocGet]
      · have hk : ¬(k = k') := fun hh => h hh.symm
        rw [assocSet, if_neg h, assocGet, if_neg hk]
        exact ih

theorem assocGet_assocSet_ne {α : Type} (l : List (String × α)) {k k' : String} (v : α)
    (h : k' ≠ k) : assocGet (assocSet l k v) k' = assocGet l k' := by
  induction l with
  | nil => simp [assocSet, assocGet, if_neg h]
  | cons e t ih =>
      obtain ⟨k0, v0⟩ := e
      by_cases h0 : k0 = k
      · subst h0
        simp [assocSet, assocGet, if_neg h]
      · simp only [assocSet, if_neg h0, assocGet]
        by_cases h1 : k' = k0
        · simp [if_pos h1]
        · simp only [if_neg h1]
          exact ih

theorem map_fst_assocSet_of_mem {α : Type} {l : List (String × α)} {k : String} (v : α)
    (h : k ∈ l.map Prod.fst) : (assocSet l k v).map Prod.fst = l.map Prod.fst := by
  induction l with
  | nil => cases h
  | cons e t ih =>
      obtain ⟨k', v'⟩ := e
      by_cases h0 : k' = k
      · simp [assocSet, if_pos h0, h0]
      · simp only [List.map_cons, List.mem_cons] at h
        rcases h with h | h
        · exact absurd h.symm h0
        · simp [assocSet, if_neg h0, ih h]

theorem map_fst_assocSet_of_not_mem {α : Type} {l : List (String × α)} {k : String} (v : α)
    (h : k ∉ l.map Prod.fst) : (assocSet l k v).map Prod.fst = l.map Prod.fst ++ [k] := by
  induction l with
  | nil => simp [assocSet]
  | cons e t ih =>
      obtain ⟨k', v'⟩ := e
      simp only [List.map_cons, List.mem_cons] at h
      push_neg at h
      have hk : ¬(k' = k) := fun hh => h.1 hh.symm
      simp [assocSet, if_neg hk, ih h.2]

theorem nodup_keys_assocSet {α : Type} {l : List (String × α)} (k : String) (v : α)
    (h : (l.map Prod.fst).Nodup) : ((assocSet l k v).map Prod.fst).Nodup := by
  by_cases hm : k ∈ l.map Prod.fst
  · rw [map_fst_assocSet_of_mem v hm]; exact h
  · rw [map_fst_assocSet_of_not_mem v hm]
    simp [List.nodup_append, h, hm]

theorem mem_assocSet {α : Type} {l : List (String × α)} {k : String} {v : α}
    {ep : String × α} (h : ep ∈ assocSet l k v) : ep.1 = k ∨ ep ∈ l := by
  induction l with
  | nil =>
      simp only [assocSet, List.mem_singleton] at h
      subst h; exact Or.inl rfl
  | cons e t ih =>
      obtain ⟨k', v'⟩ := e
      by_cases h0 : k' = k
      · rw [assocSet, if_pos h0] at h
        rcases List.mem_cons.1 h with h | h
        · subst h; exact Or.inl rfl
        · exact Or.inr (List.mem_cons_of_mem _ h)
      · rw [assocSet, if_neg h0] at h
        rcases List.mem_cons.1 h with h | h
        · subst h; exact Or.inr (List.mem_cons_self ..)
        · rcases ih h with h | h
          · exact Or.inl h
          · exact Or.inr (List.mem_cons_of_mem _ h)

theorem nodup_uniqueArrayAux (l acc : List String) (h : acc.Nodup) :
    (l.foldl (fun acc x => if x ∈ acc then acc else acc ++ [x]) acc).Nodup := by
  induction l generalizing acc with
  | nil => exact h
  | cons x t ih =>
      simp only [List.foldl_cons]
      by_cases hx : x ∈ acc
      · rw [if_pos hx]; exact ih acc h
      · rw [if_neg hx]
        exact ih _ (by simp [List.nodup_append, h, hx])

theorem nodup_uniqueArray (l : List String) : (uniqueArray l).Nodup :=
  nodup_uniqueArrayAux l [] List.nodup_nil

theorem mem_uniqueArrayAux (l : List String) (y : String) :
    ∀ acc : List String, y ∈ acc ∨ y ∈ l →
      y ∈ l.foldl (fun acc x => if x ∈ acc then acc else acc ++ [x]) acc := by
  induction l with
  | nil =>
      intro acc h
      simpa using h
  | cons x t ih =>
      intro acc h
      simp only [List.foldl_cons]
      apply ih
      by_cases hx : x ∈ acc
      · rw [if_pos hx]
        rcases h with h | h
        · exact Or.inl h
        · rcases List.mem_cons.1 h with h | h
          · subst h; exact Or.inl hx
          · exact Or.inr h
      · rw [if_neg hx]
        rcases h with h | h
        · exact Or.inl (List.mem_append.2 (Or.inl h))
        · rcases List.mem_cons.1 h with h | h
          · subst h; exact Or.inl (List.mem_append.2 (Or.inr (List.mem_singleton.2 rfl)))
          · exact Or.inr h

theorem mem_uniqueArray {l : List String} {y : String} (h : y ∈ l) : y ∈ uniqueArray l :=
  mem_uniqueArrayAux l y [] (Or.inr h)

end JXGGroup

namespace JXGGroup

theorem assocGet_keyed_filterMap_eq_none {α β : Type} (f : String → α → Option β)
    {l : List (String × α)} {k : String} (h : k ∉ l.map Prod.fst) :
    assocGet (l.filterMap (fun ep => (f ep.1 ep.2).map (fun q => (ep.1, q)))) k = none := by
  induction l with
  | nil => rfl
  | cons e t ih =>
      obtain ⟨k', v'⟩ := e
      simp only [List.map_cons, List.mem_cons] at h
      push_neg at h
      cases hf : f k' v' with
      | none =>
          simp only [List.filterMap_cons, hf, Option.map_none']
          exact ih h.2
      | some q =>
          simp only [List.filterMap_cons, hf, Option.map_some']
          rw [assocGet, if_neg h.1]
          exact ih h.2

theorem assocGet_keyed_filterMap {α β : Type} (f : String → α → Option β)
    {l : List (String × α)} {k : String} {v : α}
    (hnd : (l.map Prod.fst).Nodup) (hm : (k, v) ∈ l) :
    assocGet (l.filterMap (fun ep => (f ep.1 ep.2).map (fun q => (ep.1, q)))) k = f k v := by
  induction l with
  | nil => cases hm
  | cons e t ih =>
      obtain ⟨k', v'⟩ := e
      simp only [List.map_cons, List.nodup_cons] at hnd
      rcases List.mem_cons.1 hm with h | h
      · obtain ⟨rfl, rfl⟩ := Prod.mk.injEq .. ▸ h
        have hkt : k ∉ t.map Prod.fst := hnd.1
        cases hf : f k v with
        | none =>
            simp only [List.filterMap_cons, hf, Option.map_none']
            rw [assocGet_keyed_filterMap_eq_none f hkt]
        | some q =>
            simp only [List.filterMap_cons, hf, Option.map_some']
            rw [assocGet, if_pos rfl]
      · have hk : k ≠ k' := by
          rintro rfl
          exact hnd.1 (List.mem_map.2 ⟨(k, v), h, rfl⟩)
        cases hf : f k' v' with
        | none =>
            simp only [List.filterMap_cons, hf, Option.map_none']
            exact ih hnd.2 h
        | some q =>
            simp only [List.filterMap_cons, hf, Option.map_some']
            rw [assocGet, if_neg hk]
            exact ih hnd.2 h

theorem updateCoordsCache_objects (s : Sys) (el : String) :
    (updateCoordsCache s el).objects = s.objects := by
  rw [updateCoordsCache]
  split
  · split <;> rfl
  · rfl

theorem foldl_updateCoordsCache_objects (ks : List String) :
    ∀ s : Sys, (ks.foldl updateCoordsCache s).objects = s.objects := by
  induction ks with
  | nil => intro s; rfl
  | cons k t ih =>
      intro s
      rw [List.foldl_cons, ih, updateCoordsCache_objects]

theorem refreshAllCoords_objects (s : Sys) : (refreshAllCoords s).objects = s.objects :=
  foldl_updateCoordsCache_objects _ s

theorem filterMap_assocGet_of_keys_eq (obs : List (String × JPoint)) :
    ∀ cds : List (String × ℚ × ℚ), cds.map Prod.fst = obs.map Prod.fst →
      (cds.map Prod.fst).Nodup →
      obs.filterMap (fun ep => assocGet cds ep.1) = cds.map (fun e => e.2) := by
  induction obs with
  | nil =>
      intro cds hk _
      have : cds = [] := by
        cases cds with
        | nil => rfl
        | cons e t => simp at hk
      subst this
      rfl
  | cons e t ih =>
      intro cds hk hnd
      obtain ⟨k, p⟩ := e
      cases cds with
      | nil => simp at hk
      | cons ec tc =>
          obtain ⟨kc, c⟩ := ec
          simp only [List.map_cons, List.cons.injEq] at hk
          obtain ⟨rfl, hk2⟩ := hk
          simp only [List.map_cons, List.nodup_cons] at hnd
          simp only [List.filterMap_cons, List.map_cons]
          rw [assocGet, if_pos rfl]
          have hcongr : t.filterMap (fun ep => assocGet ((kc, c) :: tc) ep.1) =
              t.filterMap (fun ep => assocGet tc ep.1) := by
            apply List.filterMap_congr
            intro ep hep
            have hne : ep.1 ≠ kc := by
              rintro he
              apply hnd.1
              rw [hk2, ← he]
              exact List.mem_map.2 ⟨ep, hep, rfl⟩
            rw [assocGet, if_neg hne]
          rw [hcongr, ih tc hk2 hnd.2]

end JXGGroup

namespace JXGGroup

/-- C2: when exactly one member moved, `_update_find_drag_type` resolves the
action with precedence rotation over scaling over translation: a member of
`rotationPoints` with a set rotation center yields `Rotation` (never
`Scaling`); failing that, a member of `scalePoints` with a set scale center
yields `Scaling`; failing both, membership in `translationPoints` yields
`Translation`. -/
theorem role_precedence (s : Sys) (p : String) (h : changedList s = [p]) :
    ((p ∈ s.rotationPoints ∧ s.rotationCenter.isSome) →
        (findDragType s).action = Action.rotation) ∧
    (¬(p ∈ s.rotationPoints ∧ s.rotationCenter.isSome) →
      (p ∈ s.scalePoints ∧ s.scaleCenter.isSome) →
        (findDragType s).action = Action.scaling) ∧
    (¬(p ∈ s.rotationPoints ∧ s.rotationCenter.isSome) →
      ¬(p ∈ s.scalePoints ∧ s.scaleCenter.isSome) →
      p ∈ s.translationPoints →
        (findDragType s).action = Action.translation) := by
  refine ⟨?_, ?_, ?_⟩
  · intro h1
    rw [findDragType, h]
    simp [h1]
  · intro h1 h2
    rw [findDragType, h]
    simp [h1, h2]
  · intro h1 h2 h3
    rw [findDragType, h]
    simp [h1, h2, h3]

/-- C2 witness: member A of `roleBoth` is simultaneously a rotation and a
scale point, both centers are configured, it alone moved, and the classifier
resolves `Rotation`. -/
theorem role_precedence_witness :
    changedList roleBoth = ["A"] ∧
    ("A" ∈ roleBoth.rotationPoints ∧ roleBoth.rotationCenter.isSome) ∧
    ("A" ∈ roleBoth.scalePoints ∧ roleBoth.scaleCenter.isSome) ∧
    (findDragType roleBoth).action = Action.rotation :=
  ⟨by decide, ⟨by decide, by decide⟩, ⟨by decide, by decide⟩,
    (role_precedence roleBoth "A" (by decide)).1 ⟨by decide, by decide⟩⟩

/-- C3 counterexample: after adding A at (0,0) and B at (2,2) and then
removing both members, the group has zero members, yet resolving "centroid"
yields (1,1) — the mean of the two stale cache entries — and not (0,0) and
not the mean of the (empty set of) current members' snapshots. -/
theorem centroid_stale_cache_cex :
    grpRemovedBoth.objects = [] ∧
    centroidCenter grpRemovedBoth = (1, 1) ∧
    specCentroidOfMembers grpRemovedBoth = (0, 0) :=
  ⟨by decide, by decide, by decide⟩

/-- C3 amended: `_update_centroid_center` returns the arithmetic mean of all
entries of the snapshot cache; this equals the mean of the current members'
snapshots whenever the cache keys coincide with the member keys (no stale
entries), and an empty cache yields (0, 0) without dividing by zero. -/
theorem centroid_cache_mean (s : Sys) :
    (s.coords.map Prod.fst = s.objects.map Prod.fst →
      (s.coords.map Prod.fst).Nodup →
        centroidCenter s = specCentroidOfMembers s) ∧
    (s.coords = [] → centroidCenter s = (0, 0)) := by
  constructor
  · intro hk hnd
    rw [centroidCenter, specCentroidOfMembers,
      filterMap_assocGet_of_keys_eq s.objects s.coords hk hnd]
    simp only [List.foldl_map, List.length_map]
  · intro h
    rw [centroidCenter, h]
    rfl

/-- C3 witness: for a group with members snapshotted at (0,0), (2,0), (2,2),
(0,2) and no stale cache entries, the centroid is the members' snapshot mean
and equals (1,1). -/
theorem centroid_cache_mean_witness :
    centroidFour.coords.map Prod.fst = centroidFour.objects.map Prod.fst ∧
    (centroidFour.coords.map Prod.fst).Nodup ∧
    centroidCenter centroidFour = specCentroidOfMembers centroidFour ∧
    centroidCenter centroidFour = (1, 1) :=
  ⟨by decide, by decide,
    (centroid_cache_mean centroidFour).1 (by decide) (by decide), by decide⟩

/-- C9 counterexample: after adding A and B and removing B through the
public API, B is no longer a member but its snapshot entry survives, so the
snapshot mapping does not contain entries only for current members. -/
theorem removePoint_stale_snapshot_cex :
    ("B" ∉ grpRemovedB.objects.map Prod.fst) ∧
    assocGet grpRemovedB.coords "B" = some (2, 2) :=
  ⟨by decide, by decide⟩

/-- C9 amended: `addPoint` creates (or overwrites) the member's snapshot
entry and every current member keeps exactly one snapshot entry (the cache
keys stay duplicate-free), but `removePoint` leaves the snapshot cache
entirely untouched, so the mapping may retain stale entries for removed
members. -/
theorem snapshot_membership (s : Sys) (pid : String) (pt : JPoint) :
    (assocGet (addPoint s pid pt).coords pid = some (pt.x, pt.y)) ∧
    ((∀ ep ∈ s.objects, (assocGet s.coords ep.1).isSome) →
      ∀ ep ∈ (addPoint s pid pt).objects,
        (assocGet (addPoint s pid pt).coords ep.1).isSome) ∧
    ((s.coords.map Prod.fst).Nodup →
      ((addPoint s pid pt).coords.map Prod.fst).Nodup) ∧
    ((removePoint s pid).coords = s.coords) ∧
    ((∀ ep ∈ s.objects, (assocGet s.coords ep.1).isSome) →
      ∀ ep ∈ (removePoint s pid).objects,
        (assocGet (removePoint s pid).coords ep.1).isSome) := by
  refine ⟨assocGet_assocSet_self .., ?_, ?_, rfl, ?_⟩
  · intro h ep hep
    have hmem := mem_assocSet hep
    by_cases hid : ep.1 = pid
    · rw [hid, show (addPoint s pid pt).coords = assocSet s.coords pid (pt.x, pt.y) from rfl,
        assocGet_assocSet_self]
      rfl
    · rcases hmem with hmem | hmem
      · exact absurd hmem hid
      · rcases mem_assocSet hmem with hmem2 | hmem2
        · exact absurd hmem2 hid
        · rw [show (addPoint s pid pt).coords = assocSet s.coords pid (pt.x, pt.y) from rfl,
            assocGet_assocSet_ne _ _ hid]
          exact h ep hmem2
  · intro h
    exact nodup_keys_assocSet pid (pt.x, pt.y) h
  · intro h ep hep
    have : ep ∈ s.objects := (List.mem_filter.1 hep).1
    exact h ep this

/-- C9 witness: instantiating the amended statement on the one-member group
`grpA`: adding B creates B's snapshot entry, and removing B leaves the
snapshot cache of `grpA` unchanged. -/
theorem snapshot_membership_witness :
    (∀ ep ∈ grpA.objects, (assocGet grpA.coords ep.1).isSome) ∧
    (grpA.coords.map Prod.fst).Nodup ∧
    assocGet (addPoint grpA "B" ⟨2, 2, []⟩).coords "B" = some (2, 2) ∧
    (removePoint grpA "B").coords = grpA.coords :=
  ⟨by decide, by decide,
    (snapshot_membership grpA "B" ⟨2, 2, []⟩).1,
    (snapshot_membership grpA "B" ⟨2, 2, []⟩).2.2.2.1⟩

/-- C10: calling `addPoint` with an existing member overwrites the single
`objects` and `coords` entries in place (the key lists are unchanged), the
point's own `groups` list is deduplicated and contains the group id, but the
point is appended to `translationPoints` again, leaving a duplicate
reference there. -/
theorem addPoint_existing (s : Sys) (pid : String) (pt : JPoint)
    (hobj : pid ∈ s.objects.map Prod.fst)
    (hcoord : pid ∈ s.coords.map Prod.fst)
    (htp : pid ∈ s.translationPoints) :
    ((addPoint s pid pt).objects.map Prod.fst = s.objects.map Prod.fst) ∧
    ((addPoint s pid pt).coords.map Prod.fst = s.coords.map Prod.fst) ∧
    (assocGet (addPoint s pid pt).objects pid =
        some { pt with groups := uniqueArray (pt.groups ++ [s.gid]) }) ∧
    (assocGet (addPoint s pid pt).coords pid = some (pt.x, pt.y)) ∧
    ((addPoint s pid pt).translationPoints = s.translationPoints ++ [pid]) ∧
    (2 ≤ (addPoint s pid pt).translationPoints.count pid) ∧
    (uniqueArray (pt.groups ++ [s.gid])).Nodup ∧
    (s.gid ∈ uniqueArray (pt.groups ++ [s.gid])) := by
  refine ⟨?_, ?_, assocGet_assocSet_self .., assocGet_assocSet_self .., rfl, ?_, ?_, ?_⟩
  · rw [show (addPoint s pid pt).objects =
        assocSet (assocSet s.objects pid pt) pid
          { pt with groups := uniqueArray (pt.groups ++ [s.gid]) } from rfl]
    rw [map_fst_assocSet_of_mem _ (by rw [map_fst_assocSet_of_mem pt hobj]; exact hobj),
      map_fst_assocSet_of_mem pt hobj]
  · exact map_fst_assocSet_of_mem _ hcoord
  · rw [show (addPoint s pid pt).translationPoints = s.translationPoints ++ [pid] from rfl]
    rw [List.count_append]
    have h1 : 1 ≤ s.translationPoints.count pid := List.one_le_count_iff.2 htp
    have h2 : List.count pid [pid] = 1 := by simp
    omega
  · exact nodup_uniqueArray _
  · exact mem_uniqueArray (List.mem_append.2 (Or.inr (List.mem_singleton.2 rfl)))

/-- C10 witness: re-adding the existing member A of `grpAB` keeps single map
entries for A but appends a second "A" to `translationPoints`. -/
theorem addPoint_existing_witness :
    ("A" ∈ grpAB.objects.map Prod.fst) ∧
    ("A" ∈ grpAB.coords.map Prod.fst) ∧
    ("A" ∈ grpAB.translationPoints) ∧
    (grpReAddA.objects.map Prod.fst = grpAB.objects.map Prod.fst) ∧
    (grpReAddA.translationPoints = grpAB.translationPoints ++ ["A"]) ∧
    2 ≤ grpReAddA.translationPoints.count "A" :=
  ⟨by decide, by decide, by decide,
    (addPoint_existing grpAB "A" ⟨5, 5, ["G"]⟩ (by decide) (by decide) (by decide)).1,
    (addPoint_existing grpAB "A" ⟨5, 5, ["G"]⟩ (by decide) (by decide) (by decide)).2.2.2.2.1,
    (addPoint_existing grpAB "A" ⟨5, 5, ["G"]⟩ (by decide) (by decide) (by decide)).2.2.2.2.2.1⟩

end JXGGroup

namespace JXGGroup

theorem updateGo_applied_not_dirty (dist : ℚ × ℚ → ℚ × ℚ → ℚ)
    (rotM : ℚ × ℚ → ℚ × ℚ → ℚ × ℚ → Mat3) (s : Sys) (d : DragInfo)
    (t : Sys) (drag : DragInfo)
    (h : updateGo dist rotM s d = Phase1.applied t drag) : t.needsUpdate = false := by
  rw [updateGo] at h
  by_cases hno : d.action = Action.nothing
  · rw [if_pos hno] at h
    cases h
  · rw [if_neg hno] at h
    cases hobj : assocGet s.objects d.id with
    | none =>
        cases hsnap : assocGet s.coords d.id <;> simp only [hobj, hsnap] at h <;> cases h
    | some obj =>
        cases hsnap : assocGet s.coords d.id with
        | none =>
            simp only [hobj, hsnap] at h
            cases h
        | some snap =>
            simp only [hobj, hsnap] at h
            cases hact : d.action with
            | nothing => exact absurd hact hno
            | translation =>
                simp only [hact] at h
                cases h
                rfl
            | rotation =>
                cases hc : resolveCenter s s.rotationCenter with
                | none =>
                    simp only [hact, hc] at h
                    cases h
                | some c =>
                    simp only [hact, hc] at h
                    cases h
                    rfl
            | scaling =>
                cases hc : resolveCenter s s.scaleCenter with
                | none =>
                    simp only [hact, hc] at h
                    cases h
                | some c =>
                    by_cases hd : |dist snap c| < epsQ
                    · simp only [hact, hc, if_pos hd] at h
                      cases h
                    · simp only [hact, hc, if_neg hd] at h
                      cases hdir : assocGet s.scaleDirections d.id with
                      | none =>
                          simp only [hdir] at h
                          cases h
                      | some dir =>
                          simp only [hdir] at h
                          cases h
                          rfl

/-- C8: whenever the first phase of the update cycle reaches the applying
state, the state handed onward has its dirty flag already cleared, `update`
invokes the dependent-recompute propagation on exactly that state, and a
reentrant `update` on that state hits the entry guard and returns it
unchanged. -/
theorem dirty_cleared_before_propagation (dist : ℚ × ℚ → ℚ × ℚ → ℚ)
    (rotM : ℚ × ℚ → ℚ × ℚ → ℚ × ℚ → Mat3) (g g' : Sys → Sys)
    (s t : Sys) (drag : DragInfo)
    (h : updatePhase1 dist rotM s = Phase1.applied t drag) :
    t.needsUpdate = false ∧
    update dist rotM g s = refreshAllCoords (g t) ∧
    update dist rotM g' t = t := by
  have hnu : t.needsUpdate = false := by
    rw [updatePhase1] at h
    split at h
    · cases h
    · exact updateGo_applied_not_dirty dist rotM s _ t drag h
  refine ⟨hnu, ?_, ?_⟩
  · rw [update, h]
  · rw [update, updatePhase1, if_pos hnu]

/-- C8 witness: in the concrete four-point translation scenario the applying
state is reached, its dirty flag is cleared, propagation receives it, and a
reentrant update on it is the identity. -/
theorem dirty_cleared_before_propagation_witness :
    updatePhase1 dist0 rotM0 transFour = Phase1.applied phase1State phase1Drag ∧
    phase1State.needsUpdate = false ∧
    update dist0 rotM0 id transFour = refreshAllCoords (id phase1State) ∧
    update dist0 rotM0 id phase1State = phase1State :=
  ⟨rfl,
    (dirty_cleared_before_propagation dist0 rotM0 id id transFour phase1State phase1Drag rfl).1,
    (dirty_cleared_before_propagation dist0 rotM0 id id transFour phase1State phase1Drag rfl).2.1,
    (dirty_cleared_before_propagation dist0 rotM0 id id transFour phase1State phase1Drag rfl).2.2⟩

/-- C4 amended: when the resolved action is a rotation or scaling whose
center specification resolves to nothing supported, `update` aborts leaving
the whole state — every member's coordinates included — unchanged, with no
partial application; but the dirty flag is NOT cleared: `needsUpdate`
remains set. -/
theorem unsupported_center_aborts (dist : ℚ × ℚ → ℚ × ℚ → ℚ)
    (rotM : ℚ × ℚ → ℚ × ℚ → ℚ × ℚ → Mat3) (g : Sys → Sys) (s : Sys)
    (hdirty : s.needsUpdate = true)
    (h : ((findDragType s).action = Action.rotation ∧
            resolveCenter s s.rotationCenter = none) ∨
         ((findDragType s).action = Action.scaling ∧
            resolveCenter s s.scaleCenter = none)) :
    update dist rotM g s = s ∧ (update dist rotM g s).needsUpdate = true := by
  have key : updatePhase1 dist rotM s = Phase1.early s := by
    rw [updatePhase1, if_neg (by simp [hdirty])]
    rcases h with ⟨ha, hc⟩ | ⟨ha, hc⟩
    · rw [updateGo, if_neg (by simp [ha])]
      cases h1 : assocGet s.objects (findDragType s).id with
      | none => rfl
      | some obj =>
          cases h2 : assocGet s.coords (findDragType s).id with
          | none => rfl
          | some snap => simp only [ha, hc]
    · rw [updateGo, if_neg (by simp [ha])]
      cases h1 : assocGet s.objects (findDragType s).id with
      | none => rfl
      | some obj =>
          cases h2 : assocGet s.coords (findDragType s).id with
          | none => rfl
          | some snap => simp only [ha, hc]
  have hupd : update dist rotM g s = s := by rw [update, key]
  exact ⟨hupd, by rw [hupd, hdirty]⟩

/-- C4 counterexample: in the concrete scenario `badCenter` (rotation drag
with an unsupported rotation-center value) `update` leaves the state
untouched and the dirty flag is still set afterwards — the claim's "clears
the dirty flag before returning" is false on the code. -/
theorem unsupported_center_keeps_dirty_cex :
    update dist0 rotM0 id badCenter = badCenter ∧
    (update dist0 rotM0 id badCenter).needsUpdate = true :=
  ⟨rfl, by decide⟩

/-- C4 witness: the amended statement instantiated on `badCenter`. -/
theorem unsupported_center_aborts_witness :
    badCenter.needsUpdate = true ∧
    (findDragType badCenter).action = Action.rotation ∧
    resolveCenter badCenter badCenter.rotationCenter = none ∧
    update dist0 rotM0 id badCenter = badCenter ∧
    (update dist0 rotM0 id badCenter).needsUpdate = true :=
  ⟨by decide, by decide, rfl,
    (unsupported_center_aborts dist0 rotM0 id badCenter (by decide)
      (Or.inl ⟨by decide, rfl⟩)).1,
    (unsupported_center_aborts dist0 rotM0 id badCenter (by decide)
      (Or.inl ⟨by decide, rfl⟩)).2⟩

/-- C5: for a scaling action, if the distance from the drag source's
snapshot to the resolved scale center is below `Mat.eps`, `update` aborts
the whole cycle as a silent no-op: the state — every member's coordinates
included — is returned unchanged and no error is surfaced. -/
theorem degenerate_scale_noop (dist : ℚ × ℚ → ℚ × ℚ → ℚ)
    (rotM : ℚ × ℚ → ℚ × ℚ → ℚ × ℚ → Mat3) (g : Sys → Sys) (s : Sys)
    (c snap : ℚ × ℚ)
    (ha : (findDragType s).action = Action.scaling)
    (hc : resolveCenter s s.scaleCenter = some c)
    (hsnap : assocGet s.coords (findDragType s).id = some snap)
    (hdeg : |dist snap c| < epsQ) :
    update dist rotM g s = s := by
  by_cases hn : s.needsUpdate = false
  · rw [update, updatePhase1, if_pos hn]
  · have key : updatePhase1 dist rotM s = Phase1.early s := by
      rw [updatePhase1, if_neg hn, updateGo, if_neg (by simp [ha])]
      cases h1 : assocGet s.objects (findDragType s).id with
      | none => rfl
      | some obj =>
          rw [hsnap]
          simp only [ha, hc, if_pos hdeg]
    rw [update, key]

/-- C5 witness: in `degenScale` the scale point A's snapshot (0,0) coincides
with the scale center (0,0); with a distance collaborator reporting 0 the
update returns the state unchanged. -/
theorem degenerate_scale_noop_witness :
    (findDragType degenScale).action = Action.scaling ∧
    resolveCenter degenScale degenScale.scaleCenter = some (0, 0) ∧
    assocGet degenScale.coords (findDragType degenScale).id = some (0, 0) ∧
    |dist0 (0, 0) (0, 0)| < epsQ ∧
    update dist0 rotM0 id degenScale = degenScale :=
  ⟨by decide, rfl, by decide, by decide,
    degenerate_scale_noop dist0 rotM0 id degenScale (0, 0) (0, 0)
      (by decide) rfl (by decide) (by decide)⟩

end JXGGroup

namespace JXGGroup

/-- C6: under a rotation or scaling action, `_update_apply_transformation`
gives every member still existing on the board — drag source and non-drag
members alike — the coordinates `matrix · snapshot(member)`: the realized
matrix applied to the member's pre-update snapshot entry, never to an
already-mutated live value. -/
theorem transform_applied_to_snapshot (s : Sys) (drag : DragInfo) (m : Mat3)
    (hact : drag.action = Action.rotation ∨ drag.action = Action.scaling)
    (hnd : (s.objects.map Prod.fst).Nodup) :
    ∀ ep ∈ s.objects, ∀ c : ℚ × ℚ, ep.1 ∈ s.boardIds →
      assocGet s.coords ep.1 = some c →
      assocGet (applyTransformation s drag (Trans.mat m)).objects ep.1 =
        some { ep.2 with x := (applyMat m c).1, y := (applyMat m c).2 } := by
  intro ep hep c hb hc
  obtain ⟨el, p⟩ := ep
  replace hb : el ∈ s.boardIds := hb
  replace hc : assocGet s.coords el = some c := hc
  have hnt : ¬(drag.action = Action.translation) := by
    rcases hact with hact | hact <;> rw [hact] <;> intro hh <;> cases hh
  have hstep : applyStep s drag (Trans.mat m) el p =
      some { p with x := (applyMat m c).1, y := (applyMat m c).2 } := by
    rw [applyStep, if_pos hb]
    by_cases hid : el = drag.id
    · rw [if_neg (by simpa using hid), if_pos hact, hc, applyMatTo]
    · rw [if_pos hid, if_neg hnt, if_pos hact, hc, applyMatTo]
  show assocGet (s.objects.filterMap (fun ep =>
      (applyStep s drag (Trans.mat m) ep.1 ep.2).map (fun q => (ep.1, q)))) el = _
  rw [assocGet_keyed_filterMap (applyStep s drag (Trans.mat m)) hnd hep, hstep]

/-- C6 witness: rotating `roleBoth` about the origin with a concrete matrix
moves the non-drag member B from its snapshot (2,0) to (0,2), the matrix
applied to B's snapshot. -/
theorem transform_applied_to_snapshot_witness :
    (rotDrag.action = Action.rotation ∨ rotDrag.action = Action.scaling) ∧
    (roleBoth.objects.map Prod.fst).Nodup ∧
    (("B", (⟨2, 0, ["G"]⟩ : JPoint)) ∈ roleBoth.objects) ∧
    assocGet (applyTransformation roleBoth rotDrag (Trans.mat rot90)).objects "B" =
      some ⟨0, 2, ["G"]⟩ :=
  ⟨Or.inl rfl, by decide, by decide,
    transform_applied_to_snapshot roleBoth rotDrag rot90 (Or.inl rfl) (by decide)
      ("B", ⟨2, 0, ["G"]⟩) (by decide) (2, 0) (by decide) (by decide)⟩

end JXGGroup

namespace JXGGroup

theorem distSq_self (p : ℚ × ℚ) : distSq p p = 0 := by
  simp [distSq]

theorem epsSq_not_lt_zero : ¬(epsQ * epsQ < 0) := by
  norm_num [epsQ]

theorem applyStep_translation_skip (s : Sys) (drag : DragInfo) (dx dy : ℚ)
    (hact : drag.action = Action.translation) (el : String) (p : JPoint)
    (hb : el ∈ s.boardIds) (hel : el ∈ drag.changed ∨ el = drag.id) :
    applyStep s drag (Trans.vec dx dy) el p = some p := by
  have hno : ¬(drag.action = Action.rotation ∨ drag.action = Action.scaling) := by
    rw [hact]
    rintro (h | h) <;> cases h
  rw [applyStep, if_pos hb]
  by_cases hid : el = drag.id
  · rw [if_neg (by simpa using hid), if_neg hno]
  · rw [if_pos hid, if_pos hact,
      if_neg (not_not_intro (hel.resolve_right hid))]

theorem applyStep_translation_shift (s : Sys) (drag : DragInfo) (dx dy : ℚ)
    (hact : drag.action = Action.translation) (el : String) (p : JPoint) (c : ℚ × ℚ)
    (hb : el ∈ s.boardIds) (hid : el ≠ drag.id) (hnc : el ∉ drag.changed)
    (hc : assocGet s.coords el = some c) :
    applyStep s drag (Trans.vec dx dy) el p =
      some { p with x := c.1 + dx, y := c.2 + dy } := by
  rw [applyStep, if_pos hb, if_pos hid, if_pos hact, if_pos hnc, hc, applyVecTo]

theorem changedList_single_aux (cds : List (String × ℚ × ℚ)) (mId : String)
    (pm : JPoint) (c : ℚ × ℚ) (hc : assocGet cds mId = some c)
    (hch : epsQ * epsQ < distSq (pm.x, pm.y) c) :
    ∀ l : List (String × JPoint), (l.map Prod.fst).Nodup → (mId, pm) ∈ l →
      (∀ ep ∈ l, ep.1 ≠ mId → assocGet cds ep.1 = some (ep.2.x, ep.2.y)) →
      l.filterMap (fun ep =>
        match assocGet cds ep.1 with
        | some c => if epsQ * epsQ < distSq (ep.2.x, ep.2.y) c then some ep.1 else none
        | none => none) = [mId] := by
  have hnone : ∀ ep : String × JPoint, assocGet cds ep.1 = some (ep.2.x, ep.2.y) →
      (match assocGet cds ep.1 with
       | some c => if epsQ * epsQ < distSq (ep.2.x, ep.2.y) c then some ep.1 else none
       | none => none) = none := by
    intro ep h
    simp only [h]
    rw [distSq_self, if_neg epsSq_not_lt_zero]
  intro l
  induction l with
  | nil => intro _ hm; cases hm
  | cons e t ih =>
      intro hnd hm hoth
      obtain ⟨k, p⟩ := e
      simp only [List.map_cons, List.nodup_cons] at hnd
      rcases List.mem_cons.1 hm with h | h
      · obtain ⟨rfl, rfl⟩ := Prod.mk.injEq .. ▸ h
        have hrest : t.filterMap (fun ep =>
            match assocGet cds ep.1 with
            | some c => if epsQ * epsQ < distSq (ep.2.x, ep.2.y) c then some ep.1 else none
            | none => none) = [] := by
          rw [List.filterMap_eq_nil_iff]
          intro ep hep
          have hne : ep.1 ≠ mId := by
            rintro rfl
            exact hnd.1 (List.mem_map.2 ⟨ep, hep, rfl⟩)
          exact hnone ep (hoth ep (List.mem_cons_of_mem _ hep) hne)
        simp only [List.filterMap_cons, hc, if_pos hch, hrest]
      · have hkne : k ≠ mId := by
          rintro rfl
          exact hnd.1 (List.mem_map.2 ⟨(k, pm), h, rfl⟩)
        have hhead : assocGet cds (k, p).1 = some ((k, p).2.x, (k, p).2.y) :=
          hoth (k, p) (List.mem_cons_self ..) hkne
        simp only [List.filterMap_cons, hhead, distSq_self, if_neg epsSq_not_lt_zero]
        exact ih hnd.2 h (fun ep hep => hoth ep (List.mem_cons_of_mem _ hep))

/-- C1: for a group whose role configuration is the default (all members in
`translationPoints`, the other role arrays empty), if exactly one member's
live coordinates differ from its snapshot (beyond `Mat.eps`) and `update()`
runs, then every other member's coordinates become its snapshot plus the
drag delta `(live - snapshot)` of the moved member, and the moved member is
left untouched at its externally set position. -/
theorem translation_moves_group (dist : ℚ × ℚ → ℚ × ℚ → ℚ)
    (rotM : ℚ × ℚ → ℚ × ℚ → ℚ × ℚ → Mat3) (s : Sys)
    (mId : String) (pm : JPoint) (c : ℚ × ℚ)
    (hdirty : s.needsUpdate = true)
    (hnd : (s.objects.map Prod.fst).Nodup)
    (hm : (mId, pm) ∈ s.objects)
    (hc : assocGet s.coords mId = some c)
    (hch : epsQ * epsQ < distSq (pm.x, pm.y) c)
    (hoth : ∀ ep ∈ s.objects, ep.1 ≠ mId → assocGet s.coords ep.1 = some (ep.2.x, ep.2.y))
    (hboard : ∀ ep ∈ s.objects, ep.1 ∈ s.boardIds)
    (htp : ∀ ep ∈ s.objects, ep.1 ∈ s.translationPoints)
    (hrot : s.rotationPoints = [])
    (hscale : s.scalePoints = []) :
    (∀ ep ∈ s.objects, ep.1 ≠ mId →
      assocGet (update dist rotM id s).objects ep.1 =
        some { ep.2 with x := ep.2.x + (pm.x - c.1), y := ep.2.y + (pm.y - c.2) }) ∧
    assocGet (update dist rotM id s).objects mId = some pm := by
  have hlist : changedList s = [mId] :=
    changedList_single_aux s.coords mId pm c hc hch s.objects hnd hm hoth
  have hdrag : findDragType s = ⟨Action.translation, mId, [mId]⟩ := by
    rw [findDragType, hlist]
    simp [hrot, hscale, htp (mId, pm) hm]
  have hobj : assocGet s.objects mId = some pm := assocGet_of_mem hnd hm
  have hphase : updatePhase1 dist rotM s =
      Phase1.applied
        { applyTransformation s ⟨Action.translation, mId, [mId]⟩
            (Trans.vec (pm.x - c.1) (pm.y - c.2)) with needsUpdate := false }
        ⟨Action.translation, mId, [mId]⟩ := by
    rw [updatePhase1, if_neg (by simp [hdirty]), hdrag, updateGo]
    simp only [hobj, hc]
    rfl
  have hobjs : (update dist rotM id s).objects =
      s.objects.filterMap (fun ep =>
        (applyStep s ⟨Action.translation, mId, [mId]⟩
          (Trans.vec (pm.x - c.1) (pm.y - c.2)) ep.1 ep.2).map (fun q => (ep.1, q))) := by
    rw [update, hphase, refreshAllCoords_objects]
    rfl
  constructor
  · intro ep hep hne
    rw [hobjs, assocGet_keyed_filterMap _ hnd hep,
      applyStep_translation_shift _ _ _ _ rfl _ _ (ep.2.x, ep.2.y)
        (hboard ep hep) hne (by simpa using hne) (hoth ep hep hne)]
  · rw [hobjs, assocGet_keyed_filterMap _ hnd hm,
      applyStep_translation_skip _ _ _ _ rfl _ _ (hboard (mId, pm) hm) (Or.inr rfl)]

/-- C1 witness: in `transFour`, member A moved from snapshot (0,0) to (1,3);
after `update` members B, C, D are shifted by (1,3) and A stays at (1,3). -/
theorem translation_moves_group_witness :
    transFour.needsUpdate = true ∧
    (("A", (⟨1, 3, ["G"]⟩ : JPoint)) ∈ transFour.objects) ∧
    assocGet transFour.coords "A" = some (0, 0) ∧
    epsQ * epsQ < distSq (1, 3) (0, 0) ∧
    assocGet (update dist0 rotM0 id transFour).objects "B" = some ⟨3, 3, ["G"]⟩ ∧
    assocGet (update dist0 rotM0 id transFour).objects "A" = some ⟨1, 3, ["G"]⟩ :=
  ⟨by decide, by decide, by decide, by decide,
    (translation_moves_group dist0 rotM0 transFour "A" ⟨1, 3, ["G"]⟩ (0, 0)
      (by decide) (by decide) (by decide) (by decide) (by decide) (by decide)
      (by decide) (by decide) (by decide) (by decide)).1
      ("B", ⟨2, 0, ["G"]⟩) (by decide) (by decide),
    (translation_moves_group dist0 rotM0 transFour "A" ⟨1, 3, ["G"]⟩ (0, 0)
      (by decide) (by decide) (by decide) (by decide) (by decide) (by decide)
      (by decide) (by decide) (by decide) (by decide)).2⟩

end JXGGroup

namespace JXGGroup

/-- C7: if more than one member's live coordinates differ from their
snapshots, the resolved action is `Translation` with the first changed
member (in member-iteration order) as drag source; during application every
member whose id is in the changed set keeps its externally set position,
while members outside the changed set are shifted from their snapshots by
the drag source's delta. -/
theorem multi_change_translation (dist : ℚ × ℚ → ℚ × ℚ → ℚ)
    (rotM : ℚ × ℚ → ℚ × ℚ → ℚ × ℚ → Mat3) (s : Sys)
    (m1 : String) (p1 : JPoint) (c1 : ℚ × ℚ) (m2 : String) (rest : List String)
    (hdirty : s.needsUpdate = true)
    (hnd : (s.objects.map Prod.fst).Nodup)
    (hch : changedList s = m1 :: m2 :: rest)
    (hm1 : (m1, p1) ∈ s.objects)
    (hc1 : assocGet s.coords m1 = some c1)
    (hboard : ∀ ep ∈ s.objects, ep.1 ∈ s.boardIds) :
    (findDragType s).action = Action.translation ∧
    (findDragType s).id = m1 ∧
    (∀ ep ∈ s.objects, ep.1 ∈ changedList s →
      assocGet (update dist rotM id s).objects ep.1 = some ep.2) ∧
    (∀ ep ∈ s.objects, ∀ cc : ℚ × ℚ, ep.1 ∉ changedList s →
      assocGet s.coords ep.1 = some cc →
      assocGet (update dist rotM id s).objects ep.1 =
        some { ep.2 with x := cc.1 + (p1.x - c1.1), y := cc.2 + (p1.y - c1.2) }) := by
  have hdrag : findDragType s =
      ⟨Action.translation, m1, m1 :: m2 :: rest⟩ := by
    rw [findDragType, hch]
    simp
  have hobj1 : assocGet s.objects m1 = some p1 := assocGet_of_mem hnd hm1
  have hphase : updatePhase1 dist rotM s =
      Phase1.applied
        { applyTransformation s ⟨Action.translation, m1, m1 :: m2 :: rest⟩
            (Trans.vec (p1.x - c1.1) (p1.y - c1.2)) with needsUpdate := false }
        ⟨Action.translation, m1, m1 :: m2 :: rest⟩ := by
    rw [updatePhase1, if_neg (by simp [hdirty]), hdrag, updateGo]
    simp only [hobj1, hc1]
    rfl
  have hobjs : (update dist rotM id s).objects =
      s.objects.filterMap (fun ep =>
        (applyStep s ⟨Action.translation, m1, m1 :: m2 :: rest⟩
          (Trans.vec (p1.x - c1.1) (p1.y - c1.2)) ep.1 ep.2).map
            (fun q => (ep.1, q))) := by
    rw [update, hphase, refreshAllCoords_objects]
    rfl
  refine ⟨by rw [hdrag], by rw [hdrag], ?_, ?_⟩
  · intro ep hep hmem
    rw [hch] at hmem
    rw [hobjs, assocGet_keyed_filterMap _ hnd hep,
      applyStep_translation_skip _ _ _ _ rfl _ _ (hboard ep hep) (Or.inl hmem)]
  · intro ep hep cc hnc hcc
    rw [hch] at hnc
    have hne : ep.1 ≠ m1 := by
      intro he
      exact hnc (he ▸ List.mem_cons_self ..)
    rw [hobjs, assocGet_keyed_filterMap _ hnd hep,
      applyStep_translation_shift _ _ _ _ rfl _ _ cc (hboard ep hep) hne hnc hcc]

/-- C7 witness: in `multiMove` members A and B both moved (A from (0,0) to
(1,0), B from (2,2) to (7,7)); the classifier picks `Translation` with drag
source A, B keeps its externally set position (7,7), and the unmoved member
C is shifted by A's delta (1,0) from (4,4) to (5,4). -/
theorem multi_change_translation_witness :
    multiMove.needsUpdate = true ∧
    changedList multiMove = ["A", "B"] ∧
    (("A", (⟨1, 0, ["G"]⟩ : JPoint)) ∈ multiMove.objects) ∧
    assocGet multiMove.coords "A" = some (0, 0) ∧
    (findDragType multiMove).action = Action.translation ∧
    (findDragType multiMove).id = "A" ∧
    assocGet (update dist0 rotM0 id multiMove).objects "B" = some ⟨7, 7, ["G"]⟩ ∧
    assocGet (update dist0 rotM0 id multiMove).objects "C" = some ⟨5, 4, ["G"]⟩ :=
  ⟨by decide, by decide, by decide, by decide,
    (multi_change_translation dist0 rotM0 multiMove "A" ⟨1, 0, ["G"]⟩ (0, 0) "B" []
      (by decide) (by decide) (by decide) (by decide) (by decide) (by decide)).1,
    (multi_change_translation dist0 rotM0 multiMove "A" ⟨1, 0, ["G"]⟩ (0, 0) "B" []
      (by decide) (by decide) (by decide) (by decide) (by decide) (by decide)).2.1,
    (multi_change_translation dist0 rotM0 multiMove "A" ⟨1, 0, ["G"]⟩ (0, 0) "B" []
      (by decide) (by decide) (by decide) (by decide) (by decide) (by decide)).2.2.1
      ("B", ⟨7, 7, ["G"]⟩) (by decide) (by decide),
    (multi_change_translation dist0 rotM0 multiMove "A" ⟨1, 0, ["G"]⟩ (0, 0) "B" []
      (by decide) (by decide) (by decide) (by decide) (by decide) (by decide)).2.2.2
      ("C", ⟨4, 4, ["G"]⟩) (by decide) (4, 4) (by decide) (by decide)⟩

end JXGGroup
